import Mathlib

/-!
# Verification of the distributed query federation engine

Shallow embedding of `src/distributed_query_optimized.py` (namespace `Opt`) and
`src/distributed_query.py` (namespace `DQ`): the regex-extracted query structure
is modelled as the structured record `LQuery` (tables, equality joins, LIMIT);
the raw SQL strings the code manipulates are represented by their structural
components, while the Python `str.replace`-based table-name rewriting is
modelled faithfully at the character level by `pyReplace` applied to every
name field of the query (a table-name occurrence always lies inside a single
whitespace-delimited token, so per-field replacement agrees with whole-string
replacement).  Remote containers (out of scope per the spec, §6 boundary) are
modelled by their contract: a data assignment plus IN-filter/LIMIT evaluation.
The DuckDB engine adapter is modelled by `DB`: `CREATE TABLE` fails when the
name exists, `DROP TABLE IF EXISTS` never fails, `SELECT DISTINCT col` fails
when the column is absent, and join queries are executed by nested-loop
equality join with binder checking.  WHERE clauses other than join equalities
are not modelled (all modelled queries carry none), and the pandas detail that
an empty result frame has no columns (`if not df.empty: df.columns = ...`,
lines 147-148 of the optimized file) is kept via `dfOf`.
-/

/-- Column values; SQL NULL is `Option.none` at the use sites. -/
abbrev Value := Int

/-- A row is a record of named fields. -/
abbrev Row := List (String × Value)

/-- Field lookup in a row; a missing field reads as SQL NULL. -/
def getField (r : Row) (c : String) : Option Value :=
  (r.find? (fun p => p.1 == c)).map (·.2)

/-- A table's contents: a schema (column names) and rows. -/
structure TableData where
  cols : List String
  rows : List Row
deriving Repr, DecidableEq

/-- pandas `pd.DataFrame(result["results"])` followed by
`if not df.empty: df.columns = result["columns"]` (optimized file, lines
146-149): an empty result set yields a frame with no columns at all. -/
def dfOf (cols : List String) (rows : List Row) : TableData :=
  ⟨if rows.isEmpty then [] else cols, rows⟩

/-- Python `str.replace` on char lists: leftmost, non-overlapping replacement
of every occurrence of `tgt` by `rep`.  Structured with explicit fuel
(initialised to the string length, which bounds the number of steps) so the
definition is structural and reduces in the kernel. -/
def pyReplaceAux (tgt rep : List Char) : Nat → List Char → List Char
  | 0, s => s
  | _ + 1, [] => []
  | fuel + 1, c :: rest =>
    if tgt.isPrefixOf (c :: rest) && !tgt.isEmpty then
      rep ++ pyReplaceAux tgt rep fuel ((c :: rest).drop tgt.length)
    else
      c :: pyReplaceAux tgt rep fuel rest

/-- Python `s.replace(tgt, rep)` for nonempty `tgt` (table names). -/
def pyReplace (s tgt rep : String) : String :=
  ⟨pyReplaceAux tgt.data rep.data s.data.length s.data⟩

/-- Deduplication keeping the first occurrence of each element, as
`SELECT DISTINCT` materialised through `fetchdf().tolist()`. -/
def dedupFirst [DecidableEq α] : List α → List α :=
  go []
where
  go (seen : List α) : List α → List α
    | [] => []
    | a :: as => if seen.contains a then go seen as else a :: go (a :: seen) as

/-- One equality join condition `lt.lc = rt.rc` from an `ON` clause. -/
structure OnCond where
  lt : String
  lc : String
  rt : String
  rc : String
deriving Repr, DecidableEq

/-- One `JOIN jt ON cond` clause. -/
structure LJoin where
  jt : String
  cond : OnCond
deriving Repr, DecidableEq

/-- The structure the regex extractors read off a query string:
`SELECT selectList FROM fromTable (JOIN jt ON lt.lc = rt.rc)* (LIMIT n)?`.
Queries with WHERE clauses are outside the modelled fragment. -/
structure LQuery where
  selectList : String
  fromTable : String
  joins : List LJoin
  limit : Option Nat
deriving Repr, DecidableEq

/-- Model of `_remove_limit`: the query with its LIMIT clause stripped. -/
def LQuery.noLimit (q : LQuery) : LQuery := { q with limit := none }

/-- Python `query.replace(t, r)` applied to the query string, field by field
(a `\w+` table name never spans two tokens, so this agrees with replacement
on the whole string). -/
def LQuery.replaceName (q : LQuery) (t r : String) : LQuery where
  selectList := pyReplace q.selectList t r
  fromTable := pyReplace q.fromTable t r
  joins := q.joins.map (fun j =>
    ⟨pyReplace j.jt t r,
     ⟨pyReplace j.cond.lt t r, pyReplace j.cond.lc t r,
      pyReplace j.cond.rt t r, pyReplace j.cond.rc t r⟩⟩)
  limit := q.limit

/-- The `(?:FROM|JOIN)\s+(\w+)` matches, in encounter order (before the
`set(...)` is taken). -/
def LQuery.tableTokens (q : LQuery) : List String :=
  q.fromTable :: q.joins.map (·.jt)

/-- The 5-tuples `(joined_table, left_table, left_col, right_table,
right_col)` produced by `_parse_join_conditions` of the optimized file from
`JOIN (\w+) ON (\w+)\.(\w+) = (\w+)\.(\w+)` (queries without WHERE-clause
equalities, so no 4-tuples arise). -/
structure JoinTup5 where
  jt : String
  lt : String
  lc : String
  rt : String
  rc : String
deriving Repr, DecidableEq

/-- Model of `Opt._parse_join_conditions` on the modelled fragment. -/
def parseJoinConditions (q : LQuery) : List JoinTup5 :=
  q.joins.map (fun j => ⟨j.jt, j.cond.lt, j.cond.lc, j.cond.rt, j.cond.rc⟩)

/-- Remote endpoint configuration for one logical table. -/
structure TableConfig where
  url : String
  port : Nat
  table_name : String
deriving Repr, DecidableEq

/-- The `/metadata` payload; only `row_count` is consumed by the optimizer. -/
structure Metadata where
  row_count : Nat
deriving Repr, DecidableEq

/-- The structural content of a remote subquery string
`SELECT selectCols FROM table (WHERE c IN (vals))? (LIMIT n)?`, exactly the
components the f-strings of the source concatenate. -/
structure RemoteSQL where
  selectCols : String
  table : String
  whereIn : Option (String × List (Option Value)) := none
  limit : Option Nat := none
deriving Repr, DecidableEq

/-- A network request issued to a remote container. -/
inductive RemoteCall where
  | metadata (table : String)
  | query (table : String) (sql : RemoteSQL)
deriving Repr, DecidableEq

/-- Environment: the registry (`config.tables`), per-table metadata responses
(`none` = network/HTTP failure of the metadata fetch) and per-remote-table
data (`none` = network/HTTP failure of any query fetch against it). -/
structure Env where
  registry : List (String × TableConfig)
  meta : String → Option Metadata
  data : String → Option TableData

/-- The `self.config.tables[t]` lookup. -/
def cfgOf (env : Env) (t : String) : Option TableConfig :=
  (env.registry.find? (fun p => p.1 == t)).map (·.2)

/-- Remote container query evaluation (boundary contract, spec §6): filter by
the IN predicate, apply the LIMIT, and ship the result as a data frame. -/
def applySql (td : TableData) (sql : RemoteSQL) : TableData :=
  let rows1 := match sql.whereIn with
    | none => td.rows
    | some (c, vals) => td.rows.filter (fun r => vals.contains (getField r c))
  let rows2 := match sql.limit with
    | none => rows1
    | some n => rows1.take n
  dfOf td.cols rows2

/-- Errors of a request, as the source distinguishes them: `http` carries the
`HTTPException` status, `engine` is a local exception (DuckDB error, KeyError,
...) with its message. -/
inductive QError where
  | http (status : Nat) (msg : String)
  | engine (msg : String)
deriving Repr, DecidableEq

/-- The message `str(e)` the top-level handler re-wraps. -/
def QError.msg : QError → String
  | .http _ m => m
  | .engine m => m

/-- Model of `_get_table_metadata`: `config.tables[t]` (KeyError before any request if
unregistered), then the GET — recorded as issued — whose failure becomes an
`HTTPException(500)`. -/
def getTableMetadata (env : Env) (t : String) :
    Except QError Metadata × List RemoteCall :=
  match cfgOf env t with
  | none => (.error (.engine ("KeyError: " ++ t)), [])
  | some _ =>
    match env.meta t with
    | none => (.error (.http 500 ("Error getting metadata for " ++ t)), [.metadata t])
    | some m => (.ok m, [.metadata t])

/-- The `for table in tables: table_metadata[table] = await
self._get_table_metadata(table)` loop: stops at the first failure. -/
def metaPhase (env : Env) : List String →
    Except QError (List (String × Metadata)) × List RemoteCall
  | [] => (.ok [], [])
  | t :: ts =>
    match getTableMetadata env t with
    | (.error e, c) => (.error e, c)
    | (.ok m, c) =>
      match metaPhase env ts with
      | (.error e, c2) => (.error e, c ++ c2)
      | (.ok ms, c2) => (.ok ((t, m) :: ms), c ++ c2)

/-- Model of `_execute_remote_query`: KeyError before any request if unregistered,
otherwise the POST is issued; a network/HTTP failure becomes an
`HTTPException(500)`, a success is converted to a data frame. -/
def executeRemoteQuery (env : Env) (t : String) (sql : RemoteSQL) :
    Except QError TableData × List RemoteCall :=
  match cfgOf env t with
  | none => (.error (.engine ("KeyError: " ++ t)), [])
  | some _ =>
    match env.data sql.table with
    | none => (.error (.http 500 ("Error connecting to data container for " ++ t)),
               [.query t sql])
    | some td => (.ok (applySql td sql), [.query t sql])

/-- The DuckDB in-memory connection: the registered tables, in creation
order. -/
structure DB where
  tables : List (String × TableData)
deriving Repr, DecidableEq

/-- A fresh in-memory connection. -/
def DB.empty : DB := ⟨[]⟩

def DB.lookup (db : DB) (n : String) : Option TableData :=
  (db.tables.find? (fun p => p.1 == n)).map (·.2)

def DB.has (db : DB) (n : String) : Bool :=
  db.tables.any (fun p => p.1 == n)

/-- The names currently registered. -/
def DB.names (db : DB) : List String := db.tables.map (·.1)

/-- Model of `CREATE TABLE n AS SELECT * FROM df`: DuckDB raises a Catalog Error when
the table already exists. -/
def DB.create (db : DB) (n : String) (td : TableData) : Except String DB :=
  if db.has n then .error ("Catalog Error: table " ++ n ++ " already exists")
  else .ok ⟨db.tables ++ [(n, td)]⟩

/-- Model of `DROP TABLE IF EXISTS n`: never fails. -/
def DB.dropIfExists (db : DB) (n : String) : DB :=
  ⟨db.tables.filter (fun p => p.1 != n)⟩

/-- Model of `SELECT DISTINCT c FROM` a registered table: a Binder Error when the
column is absent, otherwise the distinct values (NULLs included) in
first-occurrence order. -/
def TableData.distinctCol (td : TableData) (c : String) :
    Except String (List (Option Value)) :=
  if td.cols.contains c then .ok (dedupFirst (td.rows.map (fun r => getField r c)))
  else .error ("Binder Error: column " ++ c ++ " not found")

/-- Scope check of one ON condition: both qualifiers must name a table in
scope and both columns must exist in that table's schema (DuckDB binds the
condition before looking at any row). -/
def checkCond (tabs : List (String × TableData)) (c : OnCond) : Except String Unit :=
  match (tabs.find? (fun p => p.1 == c.lt)), (tabs.find? (fun p => p.1 == c.rt)) with
  | some (_, ltd), some (_, rtd) =>
    if ltd.cols.contains c.lc && rtd.cols.contains c.rc then .ok ()
    else .error ("Binder Error: column in " ++ c.lt ++ "." ++ c.lc ++ " = " ++
                 c.rt ++ "." ++ c.rc)
  | _, _ => .error ("Binder Error: table of " ++ c.lt ++ " = " ++ c.rt)

/-- Whether one ON condition holds on a tuple of bound rows (SQL semantics:
a NULL on either side never matches). -/
def condHolds (bs : List (String × Row)) (c : OnCond) : Bool :=
  match (bs.find? (fun p => p.1 == c.lt)), (bs.find? (fun p => p.1 == c.rt)) with
  | some (_, lr), some (_, rr) =>
    match getField lr c.lc, getField rr c.rc with
    | some a, some b => a == b
    | _, _ => false
  | _, _ => false

/-- Nested-loop execution of the JOIN clauses over the registered tables. -/
def execLoop (db : DB) : List LJoin → List (String × TableData) →
    List (List (String × Row)) → Except String (List (List (String × Row)))
  | [], _, tuples => .ok tuples
  | j :: js, tabs, tuples =>
    match db.lookup j.jt with
    | none => .error ("Catalog Error: table " ++ j.jt ++ " does not exist")
    | some td =>
      let tabs2 := tabs ++ [(j.jt, td)]
      match checkCond tabs2 j.cond with
      | .error e => .error e
      | .ok _ =>
        execLoop db js tabs2
          (tuples.flatMap (fun bs =>
            (td.rows.filter (fun r => condHolds (bs ++ [(j.jt, r)]) j.cond)).map
              (fun r => bs ++ [(j.jt, r)])))

/-- Model of `self.conn.execute(modified_query).fetchdf()`: execute the rewritten query
against the local engine; `SELECT *` of a join concatenates the bound rows in
table order, then the LIMIT is applied. -/
def DB.exec (db : DB) (q : LQuery) : Except String (List Row) :=
  match db.lookup q.fromTable with
  | none => .error ("Catalog Error: table " ++ q.fromTable ++ " does not exist")
  | some td =>
    match execLoop db q.joins [(q.fromTable, td)]
        (td.rows.map (fun r => [(q.fromTable, r)])) with
    | .error e => .error e
    | .ok tuples =>
      let rows := tuples.map (fun bs => (bs.map (·.2)).flatten)
      .ok (match q.limit with | none => rows | some n => rows.take n)

/-- The temp-table name the source derives for a logical table: the fixed
prefix `temp_` and the logical name, with no per-request component. -/
def tempTableName (t : String) : String := "temp_" ++ t

/-- The structural content of the f-string
`f"SELECT {columns} FROM {table_name}"` plus the optional
`f" LIMIT {limit}"` the single-table and driving fetches append. -/
def selectFetchSQL (cols tname : String) (lim : Option Nat) : RemoteSQL :=
  ⟨cols, tname, none, lim⟩

/-- The structural content of
`f"SELECT * FROM {table_name} WHERE {other_column} IN ({id_list})"`;
dependent fetches deliberately carry no LIMIT (source comment, line 281). -/
def dependentFetchSQL (tname ocol : String) (ids : List (Option Value)) : RemoteSQL :=
  ⟨"*", tname, some (ocol, ids), none⟩

/-- The regex `rf'(?i)SELECT\s+(.*?)\s+FROM\s+{table}'`: on the modelled
fragment it matches exactly when the query's FROM token is the table, in
which case the select list is extracted, else `columns = "*"`. -/
def extractCols (q : LQuery) (t : String) : String :=
  if q.fromTable == t then q.selectList else "*"

/-- Model of `_validate_tables`: the referenced tables absent from the registry. -/
def missingTables (env : Env) (order : List String) : List String :=
  order.filter (fun t => (cfgOf env t).isNone)

def validationMsg (missing : List String) : String :=
  "Tables not found in configuration: " ++ String.intercalate ", " missing

/-- Model of `min(tables, key=...row_count)` over the
set-iteration order: the first element attaining the minimal row count. -/
def minByRowCount : List (String × Metadata) → Option (String × Metadata)
  | [] => none
  | x :: xs => some (xs.foldl (fun b y => if y.2.row_count < b.2.row_count then y else b) x)

/-- Outcome of `_optimize_join_query`/`_execute_distributed_query_original`:
the rewritten local query and the logical tables for which a temp table was
registered (the `dfs` list), together with the connection state and the
network trace, even on failure. -/
structure PipeRes where
  res : Except QError (LQuery × List String)
  db : DB
  calls : List RemoteCall
deriving Repr

/-- Outcome of a whole request: result rows or error, final connection state,
network trace. -/
structure ExecRes where
  res : Except QError (List Row)
  db : DB
  calls : List RemoteCall
deriving Repr

namespace Opt

/-- The branch dispatch of lines 246-255 of the optimized file on a 5-tuple
`join`: `if join[0] == smallest: other, ocol, scol = join[3], join[4], join[1]
else: other, ocol, scol = join[0], join[1], join[3]`.  Note that in both
branches `scol` (and in the else-branch also `ocol`) receives a *table* name
from the ON clause, not a column name. -/
def otherOf (smallest : String) (j : JoinTup5) : String × String × String :=
  if j.jt == smallest then (j.rt, j.rc, j.lt) else (j.jt, j.lt, j.rt)

/-- State carried through the dependent-fetch loop of `_optimize_join_query`:
the progressively rewritten query, the `dfs` table list, the connection and
the trace. -/
structure LoopSt where
  modified : LQuery
  processed : List String
  db : DB
  calls : List RemoteCall
deriving Repr

/-- The `for join in join_conditions:` loop (optimized file, lines 246-293):
skip tables already fetched, extract the distinct ids of `scol` from the
driving temp table, skip the join when no ids were found, cap the id list at
1000, fetch the other table with an IN predicate, register it and rewrite the
query.  Any raised exception stops the loop (second component `some e`). -/
def joinLoop (env : Env) (smallest tempSmallest : String) :
    List JoinTup5 → LoopSt → LoopSt × Option QError
  | [], st => (st, none)
  | j :: js, st =>
    if st.processed.contains (otherOf smallest j).1 then
      joinLoop env smallest tempSmallest js st
    else
      match st.db.lookup tempSmallest with
      | none => (st, some (.engine ("Catalog Error: table " ++ tempSmallest ++
                  " does not exist")))
      | some td =>
        match td.distinctCol (otherOf smallest j).2.2 with
        | .error e => (st, some (.engine e))
        | .ok ids =>
          if ids.isEmpty then
            joinLoop env smallest tempSmallest js st
          else
            match cfgOf env (otherOf smallest j).1 with
            | none => (st, some (.engine ("KeyError: " ++ (otherOf smallest j).1)))
            | some cfg =>
              match executeRemoteQuery env (otherOf smallest j).1
                  (dependentFetchSQL cfg.table_name (otherOf smallest j).2.1 (ids.take 1000)) with
              | (.error e, c) => ({ st with calls := st.calls ++ c }, some e)
              | (.ok df, c) =>
                match st.db.create (tempTableName (otherOf smallest j).1) df with
                | .error e => ({ st with calls := st.calls ++ c }, some (.engine e))
                | .ok db2 =>
                  joinLoop env smallest tempSmallest js
                    { modified := st.modified.replaceName (otherOf smallest j).1
                        (tempTableName (otherOf smallest j).1)
                      processed := st.processed ++ [(otherOf smallest j).1]
                      db := db2
                      calls := st.calls ++ c }

/-- The single-table branch of `_optimize_join_query` (lines 176-203): fetch
the one table — with the original LIMIT — register it as `temp_<t>` and
rewrite the query. -/
def singleTablePath (env : Env) (q : LQuery) (db : DB) (t : String) : PipeRes :=
  match cfgOf env t with
  | none => ⟨.error (.engine ("KeyError: " ++ t)), db, []⟩
  | some cfg =>
    match executeRemoteQuery env t (selectFetchSQL (extractCols q.noLimit t) cfg.table_name q.limit) with
    | (.error e, c) => ⟨.error e, db, c⟩
    | (.ok df, c) =>
      match db.create (tempTableName t) df with
      | .error e => ⟨.error (.engine e), db, c⟩
      | .ok db1 =>
        ⟨.ok ({ q.noLimit.replaceName t (tempTableName t) with limit := q.limit }, [t]),
         db1, c⟩

/-- The loop of `_execute_distributed_query_original` (lines 313-333): fetch
every referenced table in full (no WHERE, no LIMIT) and register it as
`temp_<t>` — with a plain `CREATE TABLE`, which fails if the name is already
registered. -/
structure OrigSt where
  db : DB
  calls : List RemoteCall
  done : List String
deriving Repr

def originalLoop (env : Env) (q : LQuery) :
    List String → OrigSt → OrigSt × Option QError
  | [], st => (st, none)
  | t :: ts, st =>
    match cfgOf env t with
    | none => (st, some (.engine ("KeyError: " ++ t)))
    | some cfg =>
      match executeRemoteQuery env t (selectFetchSQL (extractCols q.noLimit t) cfg.table_name none) with
      | (.error e, c) => ({ st with calls := st.calls ++ c }, some e)
      | (.ok df, c) =>
        match st.db.create (tempTableName t) df with
        | .error e => ({ st with calls := st.calls ++ c }, some (.engine e))
        | .ok db2 =>
          originalLoop env q ts ⟨db2, st.calls ++ c, st.done ++ [t]⟩

/-- Model of `_execute_distributed_query_original` (optimized file, lines 301-346):
validate, fetch every table in full, register temps, rewrite the query by
string replacement and re-append the LIMIT. -/
def originalPath (env : Env) (order : List String) (q : LQuery) (db : DB) : PipeRes :=
  match missingTables env order with
  | m :: ms => ⟨.error (.http 400 (validationMsg (m :: ms))), db, []⟩
  | [] =>
    match originalLoop env q order ⟨db, [], []⟩ with
    | (st, some e) => ⟨.error e, st.db, st.calls⟩
    | (st, none) =>
      let modified := st.done.foldl (fun mq t => mq.replaceName t (tempTableName t)) q.noLimit
      ⟨.ok ({ modified with limit := q.limit }, st.done), st.db, st.calls⟩

/-- The driving-table stage and dependent-fetch loop of `_optimize_join_query`
(lines 213-299), entered once join conditions were parsed: metadata succeeded
yielding `md`; select the smallest table, fetch it — including the original
LIMIT (lines 233-234) — register `temp_<smallest>` and run the join loop,
re-appending the LIMIT at the end. -/
def multiCore (env : Env) (q : LQuery) (db : DB)
    (joins : List JoinTup5) (md : List (String × Metadata))
    (calls0 : List RemoteCall) : PipeRes :=
  match minByRowCount md with
  | none => ⟨.error (.engine "ValueError: min() arg is an empty sequence"), db, calls0⟩
  | some (smallest, _) =>
    match cfgOf env smallest with
    | none => ⟨.error (.engine ("KeyError: " ++ smallest)), db, calls0⟩
    | some cfg =>
      match executeRemoteQuery env smallest
          (selectFetchSQL (extractCols q.noLimit smallest) cfg.table_name q.limit) with
      | (.error e, c) => ⟨.error e, db, calls0 ++ c⟩
      | (.ok df, c) =>
        match db.create (tempTableName smallest) df with
        | .error e => ⟨.error (.engine e), db, calls0 ++ c⟩
        | .ok db1 =>
          match joinLoop env smallest (tempTableName smallest) joins
              ⟨q.noLimit.replaceName smallest (tempTableName smallest),
               [smallest], db1, calls0 ++ c⟩ with
          | (st, some e) => ⟨.error e, st.db, st.calls⟩
          | (st, none) => ⟨.ok ({ st.modified with limit := q.limit }, st.processed),
                           st.db, st.calls⟩

/-- Model of `_optimize_join_query` (optimized file, lines 163-299): validate, branch
on single table, fall through to the original path when no join conditions
parse, fetch metadata, then run the driving/dependent stages.  `order` is the
iteration order of the Python `set` of table names, a parameter of the model
(string hashing makes it implementation-defined). -/
def optimizeJoinQuery (env : Env) (order : List String) (q : LQuery) (db : DB) : PipeRes :=
  match missingTables env order with
  | m :: ms => ⟨.error (.http 400 (validationMsg (m :: ms))), db, []⟩
  | [] =>
    match order with
    | [t] => singleTablePath env q db t
    | _ =>
      match parseJoinConditions q with
      | [] => originalPath env order q db
      | j :: js =>
        match metaPhase env order with
        | (.error e, c) => ⟨.error e, db, c⟩
        | (.ok md, c) => multiCore env q db (j :: js) md c

/-- Cleanup of lines 359-361/376-378: `DROP TABLE IF EXISTS temp_<t>` for the
tables of the `dfs` list. -/
def dropTemps (db : DB) (ts : List String) : DB :=
  ts.foldl (fun d t => d.dropIfExists (tempTableName t)) db

/-- The `except` branch of `_execute_distributed_query` (lines 364-380): run
the original path and execute its query; temp tables are dropped only after a
successful local execution — an exception here propagates with no cleanup. -/
def fallbackRun (env : Env) (order : List String) (q : LQuery) (db : DB)
    (calls0 : List RemoteCall) : ExecRes :=
  match originalPath env order q db with
  | ⟨.error e, db1, c1⟩ => ⟨.error e, db1, calls0 ++ c1⟩
  | ⟨.ok (mq, dfs), db1, c1⟩ =>
    match db1.exec mq with
    | .error e => ⟨.error (.engine e), db1, calls0 ++ c1⟩
    | .ok rows => ⟨.ok rows, dropTemps db1 dfs, calls0 ++ c1⟩

/-- Model of `_execute_distributed_query` (optimized file, lines 348-380): try the
optimized plan; on success execute locally and then drop its temp tables; on
*any* exception — with the optimized attempt's temp tables still registered —
run the fallback. -/
def executeDistributedQuery (env : Env) (order : List String) (q : LQuery) (db : DB) : ExecRes :=
  match optimizeJoinQuery env order q db with
  | ⟨.ok (mq, dfs), db1, c1⟩ =>
    match db1.exec mq with
    | .ok rows => ⟨.ok rows, dropTemps db1 dfs, c1⟩
    | .error _ => fallbackRun env order q db1 c1
  | ⟨.error _, db1, c1⟩ => fallbackRun env order q db1 c1

/-- Model of `execute_query` (optimized file, lines 382-408): the top-level handler
catches *every* exception and re-raises `HTTPException(status_code=400,
detail=str(e))`. -/
def executeQuery (env : Env) (order : List String) (q : LQuery) (db : DB) : ExecRes :=
  match executeDistributedQuery env order q db with
  | ⟨.ok rows, db1, c⟩ => ⟨.ok rows, db1, c⟩
  | ⟨.error e, db1, c⟩ => ⟨.error (.http 400 e.msg), db1, c⟩

end Opt

namespace DQ

/-- Model note: `_parse_join_conditions` of `distributed_query.py` collects the FROM/JOIN
table names as a *list* in encounter order (no set). -/
def tablesOf (q : LQuery) : List String := q.tableTokens

/-- State of the temp-table creation loop of `DQ._optimize_join_query`
(lines 252-284): `appended` is the `temp_tables` list, extended before each
table is processed. -/
structure FetchSt where
  db : DB
  calls : List RemoteCall
  appended : List String
deriving Repr

/-- The per-table loop of `DQ._optimize_join_query`: look up the container,
append the temp name, `DROP TABLE IF EXISTS` it, fetch the table in full
(modelled WHERE push-down is empty — no WHERE clauses in the fragment) and
`CREATE TABLE` it.  The first exception stops the loop. -/
def fetchLoop (env : Env) : List String → FetchSt → FetchSt × Option QError
  | [], st => (st, none)
  | t :: ts, st =>
    match cfgOf env t with
    | none => (st, some (.engine ("KeyError: " ++ t)))
    | some cfg =>
      let tn := tempTableName t
      let st1 : FetchSt := ⟨st.db.dropIfExists tn, st.calls, st.appended ++ [tn]⟩
      match executeRemoteQuery env t (selectFetchSQL "*" cfg.table_name none) with
      | (.error e, c) => (⟨st1.db, st1.calls ++ c, st1.appended⟩, some e)
      | (.ok df, c) =>
        match st1.db.create tn df with
        | .error e => (⟨st1.db, st1.calls ++ c, st1.appended⟩, some (.engine e))
        | .ok db2 => fetchLoop env ts ⟨db2, st1.calls ++ c, st1.appended⟩

/-- The join-condition rewrite of lines 293-297: every qualifier `table.` in
a condition is replaced by `temp_table.`. -/
def qualifyTemp (tables : List String) (c : OnCond) : OnCond :=
  tables.foldl (fun c t =>
    ⟨if c.lt == t then tempTableName t else c.lt, c.lc,
     if c.rt == t then tempTableName t else c.rt, c.rc⟩) c

/-- Model of `DQ._optimize_join_query` (lines 180-313): fewer than two tables → the
query is returned untouched with no temp tables; a metadata failure for any
table → likewise (`return query, []`, line 198); otherwise fetch every table
in full, register the temps, and build
`SELECT * FROM temp0 JOIN temp_i ON cond'...` — note the original LIMIT is
*not* re-appended.  An exception during the fetch loop drops the appended
temps and again returns the untouched query. -/
def optimizeJoinQuery (env : Env) (q : LQuery) (db : DB) :
    (LQuery × List String) × DB × List RemoteCall :=
  let tables := tablesOf q
  if tables.length < 2 then ((q, []), db, [])
  else
    match metaPhase env tables with
    | (.error _, c) => ((q, []), db, c)
    | (.ok _, c) =>
      match fetchLoop env tables ⟨db, c, []⟩ with
      | (st, some _) =>
        ((q, []), st.appended.foldl (fun d n => d.dropIfExists n) st.db, st.calls)
      | (st, none) =>
        match tables.map tempTableName with
        | [] => ((q, []), st.db, st.calls)
        | t0 :: trest =>
          let joins2 := (trest.zip (q.joins.map (·.cond))).map
            (fun p => LJoin.mk p.1 (qualifyTemp tables p.2))
          ((⟨"*", t0, joins2, none⟩, tables.map tempTableName), st.db, st.calls)

/-- Model of `DQ._execute_distributed_query` (lines 387-413): optimize, execute the
returned query locally, wrap a local failure as `HTTPException(500)`, and in
a `finally` drop every returned temp table on both paths. -/
def executeDistributedQuery (env : Env) (q : LQuery) (db : DB) : ExecRes :=
  match optimizeJoinQuery env q db with
  | ((mq, temps), db1, c1) =>
    match db1.exec mq with
    | .ok rows => ⟨.ok rows, temps.foldl (fun d n => d.dropIfExists n) db1, c1⟩
    | .error e => ⟨.error (.http 500 ("Error executing query: " ++ e)),
                   temps.foldl (fun d n => d.dropIfExists n) db1, c1⟩

/-- Model of `_build_container_query` from `_parse_query_components`: the minimal
`SELECT selectList FROM fromTable (LIMIT n)?` — note the *logical* table
name is forwarded. -/
def buildContainerQuery (q : LQuery) : RemoteSQL :=
  ⟨q.selectList, q.fromTable, none, q.limit⟩

/-- Model of `DQ.execute_query` (lines 471-532): a single-table query is forwarded
directly to its container with no local-engine use; a multi-table query runs
`_optimize_join_query` (line 510, its result discarded) and then
`_execute_distributed_query`.  The top-level handler re-raises every
exception as `HTTPException(400, str(e))`. -/
def executeQuery (env : Env) (q : LQuery) (db : DB) : ExecRes :=
  match q.tableTokens with
  | [t] =>
    match cfgOf env t with
    | none => ⟨.error (.http 400 ("No data container found for table " ++ t)), db, []⟩
    | some _ =>
      let sql := buildContainerQuery q
      match env.data sql.table with
      | none => ⟨.error (.http 400 ("Error forwarding query for " ++ t)), db,
                 [.query t sql]⟩
      | some td => ⟨.ok (applySql td sql).rows, db, [.query t sql]⟩
  | _ =>
    match optimizeJoinQuery env q db with
    | (_, db1, c1) =>
      match executeDistributedQuery env q db1 with
      | ⟨.ok rows, db2, c2⟩ => ⟨.ok rows, db2, c1 ++ c2⟩
      | ⟨.error e, db2, c2⟩ => ⟨.error (.http 400 e.msg), db2, c1 ++ c2⟩

end DQ

/-! ## Concrete scenarios -/

/-- Registry entry for the `accounts` logical table. -/
def cfgAccounts : TableConfig := ⟨"localhost", 8001, "accounts_t"⟩

/-- Registry entry for the `transactions` logical table. -/
def cfgTransactions : TableConfig := ⟨"localhost", 8002, "transactions_t"⟩

def accountsData : TableData :=
  ⟨["id", "name"], [[("id", 1), ("name", 100)]]⟩

def transactionsData : TableData :=
  ⟨["account_id", "amount"],
   [[("account_id", 1), ("amount", 10)], [("account_id", 2), ("amount", 20)]]⟩

/-- The spec's canonical registry: `accounts` with 10 rows of metadata,
`transactions` with 1,000,000; both containers healthy. -/
def envAT : Env where
  registry := [("accounts", cfgAccounts), ("transactions", cfgTransactions)]
  meta := fun t =>
    if t == "accounts" then some ⟨10⟩
    else if t == "transactions" then some ⟨1000000⟩
    else none
  data := fun n =>
    if n == "accounts_t" then some accountsData
    else if n == "transactions_t" then some transactionsData
    else none

/-- Query `SELECT * FROM accounts JOIN transactions ON accounts.id =
transactions.account_id`. -/
def qAT : LQuery :=
  ⟨"*", "accounts", [⟨"transactions", ⟨"accounts", "id", "transactions", "account_id"⟩⟩], none⟩

/-- The canonical query with `LIMIT 50`. -/
def qATlim : LQuery := { qAT with limit := some 50 }

/-- One possible iteration order of the Python table-name set. -/
def ordAT : List String := ["accounts", "transactions"]

/-- The other possible iteration order. -/
def ordTA : List String := ["transactions", "accounts"]

/-- Environment `envAT` with every remote query fetch failing (metadata still healthy). -/
def envATfetchFail : Env := { envAT with data := fun _ => none }

/-- Environment `envAT` with the metadata fetch for `accounts` failing. -/
def envATmetaFail : Env :=
  { envAT with meta := fun t => if t == "transactions" then some ⟨1000000⟩ else none }

/-- Registry entries and data for the `small`/`big` scenario in which the
optimized path happens to complete: `small` has a column literally named
`small`, which is what the mis-indexed id extraction reads. -/
def cfgSmall : TableConfig := ⟨"localhost", 8003, "small_t"⟩

def cfgBig : TableConfig := ⟨"localhost", 8004, "big_t"⟩

def smallData : TableData := ⟨["id", "small"], [[("id", 1), ("small", 99)]]⟩

def bigData : TableData :=
  ⟨["sid", "v"], [[("sid", 1), ("v", 10)], [("sid", 99), ("v", 20)]]⟩

def envSB : Env where
  registry := [("small", cfgSmall), ("big", cfgBig)]
  meta := fun t =>
    if t == "small" then some ⟨1⟩ else if t == "big" then some ⟨2⟩ else none
  data := fun n =>
    if n == "small_t" then some smallData
    else if n == "big_t" then some bigData
    else none

/-- Query `SELECT * FROM big JOIN small ON small.id = big.sid`. -/
def qSB : LQuery := ⟨"*", "big", [⟨"small", ⟨"small", "id", "big", "sid"⟩⟩], none⟩

def ordSB : List String := ["big", "small"]

/-- Environment `envSB` with the `small` container holding no rows at all. -/
def envSB0 : Env :=
  { envSB with
    meta := fun t =>
      if t == "small" then some ⟨0⟩ else if t == "big" then some ⟨2⟩ else none
    data := fun n =>
      if n == "small_t" then some ⟨["id", "small"], []⟩
      else if n == "big_t" then some bigData
      else none }

/-- A registry holding only `accounts`. -/
def envAcc : Env where
  registry := [("accounts", cfgAccounts)]
  meta := fun t => if t == "accounts" then some ⟨10⟩ else none
  data := fun n =>
    if n == "accounts_t" then some accountsData
    else if n == "accounts" then some accountsData
    else none

/-- Query `SELECT * FROM accounts`. -/
def qAcc : LQuery := ⟨"*", "accounts", [], none⟩

/-- Query `SELECT * FROM accounts JOIN nosuch ON accounts.id = nosuch.aid` —
`nosuch` is not in the registry. -/
def qAN : LQuery :=
  ⟨"*", "accounts", [⟨"nosuch", ⟨"accounts", "id", "nosuch", "aid"⟩⟩], none⟩

/-! ## General lemmas about the embedded pipeline -/

/-- A successful remote query records exactly the issued POST. -/
theorem executeRemoteQuery_ok_calls (env : Env) (t : String) (sql : RemoteSQL)
    (df : TableData) (c : List RemoteCall)
    (h : executeRemoteQuery env t sql = (.ok df, c)) : c = [.query t sql] := by
  unfold executeRemoteQuery at h
  cases hc : cfgOf env t <;> simp [hc] at h
  cases hd : env.data sql.table <;> simp [hd] at h
  exact h.2.symm

/-- Lemma: `CREATE TABLE` appends exactly the new name. -/
theorem DB.create_names (db : DB) (n : String) (td : TableData) (db' : DB)
    (h : db.create n td = .ok db') : db'.names = db.names ++ [n] := by
  unfold DB.create at h
  by_cases hh : db.has n <;> simp [hh] at h
  subst h
  simp [DB.names]

/-- Applying `dedupFirst` to a nonempty list is nonempty. -/
theorem dedupFirst_ne_nil [DecidableEq α] (a : α) (as : List α) :
    dedupFirst (a :: as) ≠ [] := by
  unfold dedupFirst dedupFirst.go
  simp

/-- A successful `SELECT DISTINCT` over a fetched data frame never yields an
empty value list: an empty result frame has no columns and makes the
extraction fail instead. -/
theorem distinctCol_dfOf_ok_ne_nil (cols : List String) (rows : List Row)
    (c : String) (ids : List (Option Value))
    (h : (dfOf cols rows).distinctCol c = .ok ids) : ids ≠ [] := by
  unfold TableData.distinctCol dfOf at h
  cases rows with
  | nil => simp at h
  | cons r rs =>
    simp only [List.isEmpty_cons, if_false, Bool.false_eq_true, if_neg] at h
    split at h
    · simp only [Except.ok.injEq] at h
      subst h
      exact dedupFirst_ne_nil _ _
    · simp at h

/-- The trace of one remote query attempt: empty (KeyError before the POST)
or exactly the POST. -/
theorem executeRemoteQuery_calls (env : Env) (t : String) (sql : RemoteSQL) :
    (executeRemoteQuery env t sql).2 = [] ∨
    (executeRemoteQuery env t sql).2 = [.query t sql] := by
  unfold executeRemoteQuery
  cases cfgOf env t <;> simp
  cases env.data sql.table <;> simp

/-- The trace of one remote query attempt, equation form. -/
theorem executeRemoteQuery_calls_eq (env : Env) (t : String) (sql : RemoteSQL)
    (res : Except QError TableData) (c : List RemoteCall)
    (h : executeRemoteQuery env t sql = (res, c)) :
    c = [] ∨ c = [.query t sql] := by
  have h2 := executeRemoteQuery_calls env t sql
  rw [h] at h2
  exact h2

/-- Membership in a trace extended by one dependent fetch. -/
theorem mem_append_dep {t o tn oc : String} {ids : List (Option Value)}
    {sql : RemoteSQL} {l c : List RemoteCall}
    (hc : c = [] ∨ c = [RemoteCall.query o (dependentFetchSQL tn oc ids)])
    (h : RemoteCall.query t sql ∈ l ++ c) :
    RemoteCall.query t sql ∈ l ∨ sql.limit = none := by
  rcases hc with rfl | rfl
  · exact Or.inl (by simpa using h)
  · rcases List.mem_append.mp h with h1 | h1
    · exact Or.inl h1
    · right
      simp only [List.mem_singleton, RemoteCall.query.injEq] at h1
      rw [h1.2]
      rfl

/-- Every remote query issued inside the dependent-fetch loop is a LIMIT-less
IN fetch: any query call in the final trace was already in the entering trace
or carries no LIMIT. -/
theorem Opt.joinLoop_query_limit (env : Env) (s ts : String) (js : List JoinTup5)
    (st : Opt.LoopSt) (t : String) (sql : RemoteSQL)
    (h : RemoteCall.query t sql ∈ (Opt.joinLoop env s ts js st).1.calls) :
    RemoteCall.query t sql ∈ st.calls ∨ sql.limit = none := by
  induction js generalizing st with
  | nil => exact Or.inl (by simpa [Opt.joinLoop] using h)
  | cons j js ih =>
    rw [Opt.joinLoop] at h
    split at h
    · exact ih _ h
    · split at h
      · exact Or.inl h
      · split at h
        · exact Or.inl h
        · split at h
          · exact ih _ h
          · split at h
            · exact Or.inl h
            · split at h
              · rename_i heq
                exact mem_append_dep (executeRemoteQuery_calls_eq _ _ _ _ _ heq) h
              · rename_i heq
                have hc := executeRemoteQuery_calls_eq _ _ _ _ _ heq
                split at h
                · exact mem_append_dep hc h
                · rcases ih _ h with h1 | h1
                  · exact mem_append_dep hc h1
                  · exact Or.inr h1

/-- A query fetch against a registered table always records its POST. -/
theorem executeRemoteQuery_calls_registered (env : Env) (t : String) (sql : RemoteSQL)
    (cfg : TableConfig) (hcfg : cfgOf env t = some cfg) :
    (executeRemoteQuery env t sql).2 = [.query t sql] := by
  unfold executeRemoteQuery
  rw [hcfg]
  cases env.data sql.table <;> simp

/-- The dependent-fetch loop only appends to the network trace. -/
theorem Opt.joinLoop_calls_extend (env : Env) (s ts : String) (js : List JoinTup5)
    (st : Opt.LoopSt) :
    ∃ suf, (Opt.joinLoop env s ts js st).1.calls = st.calls ++ suf := by
  induction js generalizing st with
  | nil => exact ⟨[], by simp [Opt.joinLoop]⟩
  | cons j js ih =>
    rw [Opt.joinLoop]
    split
    · exact ih st
    · split
      · exact ⟨[], by simp⟩
      · split
        · exact ⟨[], by simp⟩
        · split
          · exact ih st
          · split
            · exact ⟨[], by simp⟩
            · split
              · exact ⟨_, rfl⟩
              · split
                · exact ⟨_, rfl⟩
                · obtain ⟨suf, hsuf⟩ := ih _
                  rw [hsuf]
                  exact ⟨_, (List.append_assoc _ _ _)⟩

/-- Every table registered by the dependent-fetch loop bears a `temp_`-derived
name. -/
theorem Opt.joinLoop_names (env : Env) (s ts : String) (js : List JoinTup5)
    (st : Opt.LoopSt) (n : String)
    (h : n ∈ (Opt.joinLoop env s ts js st).1.db.names) :
    n ∈ st.db.names ∨ ∃ t, n = tempTableName t := by
  induction js generalizing st with
  | nil => exact Or.inl (by simpa [Opt.joinLoop] using h)
  | cons j js ih =>
    rw [Opt.joinLoop] at h
    split at h
    · exact ih _ h
    · split at h
      · exact Or.inl h
      · split at h
        · exact Or.inl h
        · split at h
          · exact ih _ h
          · split at h
            · exact Or.inl h
            · split at h
              · exact Or.inl h
              · split at h
                · exact Or.inl h
                · rename_i hcr
                  rcases ih _ h with h1 | h1
                  · dsimp only at h1
                    rw [DB.create_names _ _ _ _ hcr] at h1
                    rcases List.mem_append.mp h1 with h2 | h2
                    · exact Or.inl h2
                    · exact Or.inr ⟨_, (List.mem_singleton.mp h2)⟩
                  · exact Or.inr h1

/-- The fallback fetch loop only appends to the network trace. -/
theorem Opt.originalLoop_calls_extend (env : Env) (q : LQuery) (ts : List String)
    (st : Opt.OrigSt) :
    ∃ suf, (Opt.originalLoop env q ts st).1.calls = st.calls ++ suf := by
  induction ts generalizing st with
  | nil => exact ⟨[], by simp [Opt.originalLoop]⟩
  | cons t ts ih =>
    rw [Opt.originalLoop]
    split
    · exact ⟨[], by simp⟩
    · split
      · exact ⟨_, rfl⟩
      · split
        · exact ⟨_, rfl⟩
        · obtain ⟨suf, hsuf⟩ := ih _
          rw [hsuf]
          exact ⟨_, (List.append_assoc _ _ _)⟩

/-- Every table registered by the fallback fetch loop bears a `temp_`-derived
name. -/
theorem Opt.originalLoop_names (env : Env) (q : LQuery) (ts : List String)
    (st : Opt.OrigSt) (n : String)
    (h : n ∈ (Opt.originalLoop env q ts st).1.db.names) :
    n ∈ st.db.names ∨ ∃ t, n = tempTableName t := by
  induction ts generalizing st with
  | nil => exact Or.inl (by simpa [Opt.originalLoop] using h)
  | cons t ts ih =>
    rw [Opt.originalLoop] at h
    split at h
    · exact Or.inl h
    · split at h
      · exact Or.inl h
      · split at h
        · exact Or.inl h
        · rename_i hcr
          rcases ih _ h with h1 | h1
          · dsimp only at h1
            rw [DB.create_names _ _ _ _ hcr] at h1
            rcases List.mem_append.mp h1 with h2 | h2
            · exact Or.inl h2
            · exact Or.inr ⟨_, (List.mem_singleton.mp h2)⟩
          · exact Or.inr h1

/-- When the fallback fetch loop completes, every listed table was fetched in
full: a LIMIT-less, predicate-less SELECT was issued against its container
and recorded in the final trace. -/
theorem Opt.originalLoop_full_fetch (env : Env) (q : LQuery) (ts : List String)
    (st : Opt.OrigSt) (hok : (Opt.originalLoop env q ts st).2 = none) :
    ∀ t ∈ ts, ∃ cfg, cfgOf env t = some cfg ∧
      RemoteCall.query t (selectFetchSQL (extractCols q.noLimit t) cfg.table_name none)
        ∈ (Opt.originalLoop env q ts st).1.calls := by
  induction ts generalizing st with
  | nil => intro t ht; exact absurd ht (List.not_mem_nil t)
  | cons u ts ih =>
    intro t ht
    rw [Opt.originalLoop] at hok ⊢
    cases hcfg : cfgOf env u with
    | none => rw [hcfg] at hok; simp at hok
    | some cfg =>
      rw [hcfg] at hok
      dsimp only at hok ⊢
      cases hq : executeRemoteQuery env u
          (selectFetchSQL (extractCols q.noLimit u) cfg.table_name none) with
      | mk res c =>
        rw [hq] at hok
        cases res with
        | error e => simp at hok
        | ok df =>
          dsimp only at hok ⊢
          cases hcr : st.db.create (tempTableName u) df with
          | error e => rw [hcr] at hok; simp at hok
          | ok db2 =>
            rw [hcr] at hok
            dsimp only at hok
            rcases List.mem_cons.mp ht with rfl | hts
            · refine ⟨cfg, hcfg, ?_⟩
              obtain ⟨suf, hsuf⟩ := Opt.originalLoop_calls_extend env q ts
                ⟨db2, st.calls ++ c, st.done ++ [t]⟩
              rw [hsuf]
              have hc := executeRemoteQuery_ok_calls _ _ _ _ _ hq
              subst hc
              simp
            · exact ih _ hok t hts

/-- The driving-table fetch issued by the optimized multi-table core carries
exactly the original query's LIMIT, and is the first query call it records
after the metadata phase. -/
theorem Opt.multiCore_driving_call (env : Env) (q : LQuery) (db : DB)
    (joins : List JoinTup5) (md : List (String × Metadata))
    (calls0 : List RemoteCall) (s : String) (m : Metadata) (cfg : TableConfig)
    (hmin : minByRowCount md = some (s, m))
    (hcfg : cfgOf env s = some cfg) :
    ∃ suf, (Opt.multiCore env q db joins md calls0).calls =
      calls0 ++ [RemoteCall.query s
        (selectFetchSQL (extractCols q.noLimit s) cfg.table_name q.limit)] ++ suf := by
  unfold Opt.multiCore
  rw [hmin]
  dsimp only
  rw [hcfg]
  dsimp only
  cases hq : executeRemoteQuery env s
      (selectFetchSQL (extractCols q.noLimit s) cfg.table_name q.limit) with
  | mk res c =>
    have hc : c = [RemoteCall.query s
        (selectFetchSQL (extractCols q.noLimit s) cfg.table_name q.limit)] := by
      have h2 := executeRemoteQuery_calls_registered env s
        (selectFetchSQL (extractCols q.noLimit s) cfg.table_name q.limit) cfg hcfg
      rw [hq] at h2
      exact h2
    subst hc
    cases res with
    | error e => exact ⟨[], by simp⟩
    | ok df =>
      dsimp only
      cases hcr : db.create (tempTableName s) df with
      | error e => exact ⟨[], by simp⟩
      | ok db1 =>
        dsimp only
        obtain ⟨suf, hsuf⟩ := Opt.joinLoop_calls_extend env s (tempTableName s) joins
          ⟨q.noLimit.replaceName s (tempTableName s), [s], db1, calls0 ++ [_]⟩
        cases hjl : Opt.joinLoop env s (tempTableName s) joins
            ⟨q.noLimit.replaceName s (tempTableName s), [s], db1, calls0 ++ [_]⟩ with
        | mk stf oe =>
          rw [hjl] at hsuf
          cases oe with
          | none => exact ⟨suf, by simpa [List.append_assoc] using hsuf⟩
          | some e => exact ⟨suf, by simpa [List.append_assoc] using hsuf⟩

/-- The single-table branch registers only a `temp_`-derived name. -/
theorem Opt.singleTablePath_names (env : Env) (q : LQuery) (db : DB) (t : String)
    (n : String) (h : n ∈ (Opt.singleTablePath env q db t).db.names) :
    n ∈ db.names ∨ ∃ u, n = tempTableName u := by
  unfold Opt.singleTablePath at h
  cases hcfg : cfgOf env t with
  | none => rw [hcfg] at h; exact Or.inl h
  | some cfg =>
    rw [hcfg] at h
    dsimp only at h
    cases hq : executeRemoteQuery env t
        (selectFetchSQL (extractCols q.noLimit t) cfg.table_name q.limit) with
    | mk res c =>
      rw [hq] at h
      cases res with
      | error e => exact Or.inl h
      | ok df =>
        dsimp only at h
        cases hcr : db.create (tempTableName t) df with
        | error e => rw [hcr] at h; exact Or.inl h
        | ok db1 =>
          rw [hcr] at h
          dsimp only at h
          rw [DB.create_names _ _ _ _ hcr] at h
          rcases List.mem_append.mp h with h2 | h2
          · exact Or.inl h2
          · exact Or.inr ⟨_, (List.mem_singleton.mp h2)⟩

/-- The fallback path registers only `temp_`-derived names. -/
theorem Opt.originalPath_names (env : Env) (order : List String) (q : LQuery)
    (db : DB) (n : String) (h : n ∈ (Opt.originalPath env order q db).db.names) :
    n ∈ db.names ∨ ∃ u, n = tempTableName u := by
  unfold Opt.originalPath at h
  cases hmiss : missingTables env order with
  | cons m ms => rw [hmiss] at h; exact Or.inl h
  | nil =>
    rw [hmiss] at h
    dsimp only at h
    cases hloop : Opt.originalLoop env q order ⟨db, [], []⟩ with
    | mk st oe =>
      rw [hloop] at h
      have h2 : n ∈ (Opt.originalLoop env q order ⟨db, [], []⟩).1.db.names := by
        rw [hloop]
        cases oe <;> exact h
      exact Opt.originalLoop_names env q order ⟨db, [], []⟩ n h2

/-- The multi-table core registers only `temp_`-derived names. -/
theorem Opt.multiCore_names (env : Env) (q : LQuery) (db : DB)
    (joins : List JoinTup5) (md : List (String × Metadata))
    (calls0 : List RemoteCall) (n : String)
    (h : n ∈ (Opt.multiCore env q db joins md calls0).db.names) :
    n ∈ db.names ∨ ∃ u, n = tempTableName u := by
  unfold Opt.multiCore at h
  cases hmin : minByRowCount md with
  | none => rw [hmin] at h; exact Or.inl h
  | some p =>
    rw [hmin] at h
    cases p with
    | mk s m =>
      dsimp only at h
      cases hcfg : cfgOf env s with
      | none => rw [hcfg] at h; exact Or.inl h
      | some cfg =>
        rw [hcfg] at h
        dsimp only at h
        cases hq : executeRemoteQuery env s
            (selectFetchSQL (extractCols q.noLimit s) cfg.table_name q.limit) with
        | mk res c =>
          rw [hq] at h
          cases res with
          | error e => exact Or.inl h
          | ok df =>
            dsimp only at h
            cases hcr : db.create (tempTableName s) df with
            | error e => rw [hcr] at h; exact Or.inl h
            | ok db1 =>
              rw [hcr] at h
              dsimp only at h
              have h2 : n ∈ (Opt.joinLoop env s (tempTableName s) joins
                  ⟨q.noLimit.replaceName s (tempTableName s), [s], db1,
                   calls0 ++ c⟩).1.db.names := by
                cases hjl : Opt.joinLoop env s (tempTableName s) joins
                    ⟨q.noLimit.replaceName s (tempTableName s), [s], db1,
                     calls0 ++ c⟩ with
                | mk stf oe =>
                  rw [hjl] at h
                  cases oe <;> exact h
              rcases Opt.joinLoop_names env s (tempTableName s) joins _ n h2 with h3 | h3
              · dsimp only at h3
                rw [DB.create_names _ _ _ _ hcr] at h3
                rcases List.mem_append.mp h3 with h4 | h4
                · exact Or.inl h4
                · exact Or.inr ⟨_, (List.mem_singleton.mp h4)⟩
              · exact Or.inr h3

/-- Every name `_optimize_join_query` can leave registered that was not
already registered is `temp_` followed by some table name: the scheme
involves no per-request component. -/
theorem Opt.optimizeJoinQuery_names (env : Env) (order : List String)
    (q : LQuery) (db : DB) (n : String)
    (h : n ∈ (Opt.optimizeJoinQuery env order q db).db.names) :
    n ∈ db.names ∨ ∃ u, n = tempTableName u := by
  unfold Opt.optimizeJoinQuery at h
  cases hmiss : missingTables env order with
  | cons m ms => rw [hmiss] at h; exact Or.inl h
  | nil =>
    rw [hmiss] at h
    dsimp only at h
    match order, h with
    | [t], h => exact Opt.singleTablePath_names env q db t n h
    | [], h =>
      revert h
      cases hpj : parseJoinConditions q with
      | nil => exact fun h => Opt.originalPath_names env [] q db n h
      | cons j js =>
        cases hm : metaPhase env [] with
        | mk mres mc =>
          cases mres with
          | error e => exact fun h => Or.inl h
          | ok md => exact fun h => Opt.multiCore_names env q db (j :: js) md mc n h
    | t1 :: t2 :: ts, h =>
      revert h
      cases hpj : parseJoinConditions q with
      | nil => exact fun h => Opt.originalPath_names env (t1 :: t2 :: ts) q db n h
      | cons j js =>
        cases hm : metaPhase env (t1 :: t2 :: ts) with
        | mk mres mc =>
          cases mres with
          | error e => exact fun h => Or.inl h
          | ok md =>
            exact fun h => Opt.multiCore_names env q db (j :: js) md mc n h

/-- The fold underlying `min(..., key=row_count)` returns a row-count lower
bound of its initial value and of every element. -/
theorem foldlMin_le (l : List (String × Metadata)) (x : String × Metadata) :
    (l.foldl (fun b y => if y.2.row_count < b.2.row_count then y else b) x).2.row_count ≤
      x.2.row_count ∧
    ∀ y ∈ l,
      (l.foldl (fun b y => if y.2.row_count < b.2.row_count then y else b) x).2.row_count ≤
        y.2.row_count := by
  induction l generalizing x with
  | nil => exact ⟨le_refl _, by simp⟩
  | cons a as ih =>
    simp only [List.foldl_cons]
    refine ⟨?_, ?_⟩
    · split
      · exact le_trans (ih _).1 (le_of_lt (by assumption))
      · exact (ih _).1
    · intro y hy
      rcases List.mem_cons.mp hy with rfl | hy2
      · split
        · exact (ih _).1
        · exact le_trans (ih _).1 (Nat.le_of_not_lt (by assumption))
      · exact (ih _).2 y hy2

/-- Function `min(tables, key=...)` returns an element of minimal row count. -/
theorem minByRowCount_le (md : List (String × Metadata)) (p : String × Metadata)
    (h : minByRowCount md = some p) : ∀ y ∈ md, p.2.row_count ≤ y.2.row_count := by
  cases md with
  | nil => simp [minByRowCount] at h
  | cons x xs =>
    simp only [minByRowCount, Option.some.injEq] at h
    subst h
    intro y hy
    rcases List.mem_cons.mp hy with rfl | hy2
    · exact (foldlMin_le xs y).1
    · exact (foldlMin_le xs x).2 y hy2

/-- A request as the spec individuates them: an identifier and a query.  The
source never consults any per-request identifier when deriving temp-table
names, which the definitions below make explicit. -/
structure Request where
  id : Nat
  query : LQuery
deriving Repr, DecidableEq

/-- The temp tables a request's `_optimize_join_query` pass leaves registered
starting from a fresh engine: the request identifier cannot influence it,
because the source derives every temp name as `temp_<logical name>`. -/
def Opt.requestTempNames (env : Env) (order : List String) (r : Request) :
    List String :=
  (Opt.optimizeJoinQuery env order r.query DB.empty).db.names

/-! ## Claim theorems -/

/-- C1: the claim — after any request (success or failure) completes, no temp
table created by it remains registered in the local join engine — is violated
by the code.  On the canonical accounts/transactions join with every remote
operation healthy, the optimized path registers `temp_accounts`, then crashes
extracting join ids (the mis-indexed join tuple makes it run
`SELECT DISTINCT transactions FROM temp_accounts`); the fallback then fails on
`CREATE TABLE temp_accounts` because that table still exists, the exception
propagates with no cleanup on that path, and `temp_accounts` is still
registered when the request returns. -/
theorem c1_temp_table_leaked :
    (Opt.executeQuery envAT ordAT qAT DB.empty).db.names = ["temp_accounts"] ∧
    (Opt.executeQuery envAT ordAT qAT DB.empty).db.names ≠ [] ∧
    (Opt.executeQuery envAT ordAT qAT DB.empty).res =
      .error (.http 400 "Catalog Error: table temp_accounts already exists") :=
  ⟨rfl, by decide, rfl⟩

/-- C2 counterexample: two distinct requests for the same query register the
very same temp-table name `temp_accounts`, refuting "the temp-table names
each request registers are unique to that request ... never collide". -/
theorem c2_counterexample :
    (⟨1, qAcc⟩ : Request) ≠ ⟨2, qAcc⟩ ∧
    Opt.requestTempNames envAcc ["accounts"] ⟨1, qAcc⟩ =
      Opt.requestTempNames envAcc ["accounts"] ⟨2, qAcc⟩ ∧
    Opt.requestTempNames envAcc ["accounts"] ⟨1, qAcc⟩ = ["temp_accounts"] :=
  ⟨by decide, rfl, rfl⟩

/-- C2 (amended): the temp-table names a request registers are derived from
the logical table names alone with the fixed prefix `temp_` — they carry no
per-request component, so any two requests with the same query register
identical names and concurrent requests on a common table can collide. -/
theorem c2_temp_names_request_independent :
    (∀ (env : Env) (order : List String) (r r' : Request), r.query = r'.query →
      Opt.requestTempNames env order r = Opt.requestTempNames env order r') ∧
    (∀ (env : Env) (order : List String) (r : Request) (n : String),
      n ∈ Opt.requestTempNames env order r → ∃ u, n = tempTableName u) := by
  constructor
  · intro env order r r' h
    unfold Opt.requestTempNames
    rw [h]
  · intro env order r n h
    rcases Opt.optimizeJoinQuery_names env order r.query DB.empty n h with h1 | h1
    · simp [DB.empty, DB.names] at h1
    · exact h1

theorem c2_witness :
    Opt.requestTempNames envAcc ["accounts"] ⟨3, qAcc⟩ =
      Opt.requestTempNames envAcc ["accounts"] ⟨4, qAcc⟩ ∧
    ∃ u, "temp_accounts" = tempTableName u :=
  ⟨c2_temp_names_request_independent.1 envAcc ["accounts"] ⟨3, qAcc⟩ ⟨4, qAcc⟩ rfl,
   c2_temp_names_request_independent.2 envAcc ["accounts"] ⟨3, qAcc⟩ "temp_accounts"
     (by decide)⟩

/-- C3 counterexample: with the canonical join query carrying `LIMIT 50`, the
fetch issued against the driving table `accounts` carries `LIMIT 50` (third
call of the trace), refuting "the fetch issued against the driving table
carries no LIMIT clause". -/
theorem c3_counterexample :
    (Opt.executeQuery envAT ordAT qATlim DB.empty).calls =
      [.metadata "accounts", .metadata "transactions",
       .query "accounts" (selectFetchSQL "*" "accounts_t" (some 50)),
       .query "accounts" (selectFetchSQL "*" "accounts_t" none)] ∧
    (selectFetchSQL "*" "accounts_t" (some 50)).limit ≠ none :=
  ⟨rfl, by decide⟩

/-- C3 (amended): the driving-table fetch includes the original query's LIMIT
(the call recorded right after the metadata phase carries `q.limit`); only
the dependent fetches of the join loop are guaranteed LIMIT-free, and the
LIMIT is additionally re-applied after the local join. -/
theorem c3_limit_placement :
    (∀ (env : Env) (s ts : String) (js : List JoinTup5) (st : Opt.LoopSt)
        (t : String) (sql : RemoteSQL),
      RemoteCall.query t sql ∈ (Opt.joinLoop env s ts js st).1.calls →
      RemoteCall.query t sql ∈ st.calls ∨ sql.limit = none) ∧
    (∀ (env : Env) (q : LQuery) (db : DB) (joins : List JoinTup5)
        (md : List (String × Metadata)) (calls0 : List RemoteCall)
        (s : String) (m : Metadata) (cfg : TableConfig),
      minByRowCount md = some (s, m) → cfgOf env s = some cfg →
      ∃ suf, (Opt.multiCore env q db joins md calls0).calls =
        calls0 ++ [RemoteCall.query s
          (selectFetchSQL (extractCols q.noLimit s) cfg.table_name q.limit)] ++ suf) :=
  ⟨Opt.joinLoop_query_limit, Opt.multiCore_driving_call⟩

theorem c3_witness :
    (RemoteCall.query "big" (dependentFetchSQL "big_t" "sid" [some 99]) ∈
        ([] : List RemoteCall) ∨
      (dependentFetchSQL "big_t" "sid" [some 99]).limit = none) ∧
    (∃ suf, (Opt.multiCore envAT qATlim DB.empty (parseJoinConditions qATlim)
        [("accounts", ⟨10⟩), ("transactions", ⟨1000000⟩)] []).calls =
      [] ++ [RemoteCall.query "accounts"
        (selectFetchSQL (extractCols qATlim.noLimit "accounts")
          cfgAccounts.table_name qATlim.limit)] ++ suf) :=
  ⟨c3_limit_placement.1 envSB "small" "temp_small" (parseJoinConditions qSB)
      ⟨qSB.noLimit.replaceName "small" "temp_small", ["small"],
       ⟨[("temp_small", smallData)]⟩, []⟩
      "big" (dependentFetchSQL "big_t" "sid" [some 99]) (by decide),
   c3_limit_placement.2 envAT qATlim DB.empty (parseJoinConditions qATlim)
      [("accounts", ⟨10⟩), ("transactions", ⟨1000000⟩)] [] "accounts" ⟨10⟩
      cfgAccounts (by decide) (by decide)⟩

/-- C4: the claim — the optimized and fallback paths are row-equivalent
whenever both complete — is violated.  In the `small`/`big` scenario both
paths complete: the optimized path extracts "join ids" from the wrong column
(the ON clause's left *table* name, here the column `small` of table
`small`), fetches only `big` rows with `sid IN (99)` — none of which join —
and returns no rows, while the fallback path fetching both tables in full
returns the one genuine join row. -/
theorem c4_paths_not_row_equivalent :
    (Opt.executeDistributedQuery envSB ordSB qSB DB.empty).res = .ok [] ∧
    (Opt.fallbackRun envSB ordSB qSB DB.empty []).res =
      .ok [[("sid", 1), ("v", 10), ("id", 1), ("small", 99)]] ∧
    ([] : List Row) ≠ [[("sid", 1), ("v", 10), ("id", 1), ("small", 99)]] :=
  ⟨rfl, rfl, by decide⟩

/-- C5: the driving table is indeed one of minimal metadata row count (first
conjunct, fully general; with the accounts/transactions registry the
metadata phase yields the shown pairs and `accounts` is selected), but the
claimed IN-predicate dependent fetch never happens: on the canonical query
the only remote query ever issued against `transactions` is the fallback's
full fetch, with no IN predicate — the optimized path crashes first on
`SELECT DISTINCT transactions FROM temp_accounts`. -/
theorem c5_minimal_driving_but_no_in_fetch :
    (∀ (md : List (String × Metadata)) (p : String × Metadata),
      minByRowCount md = some p → ∀ y ∈ md, p.2.row_count ≤ y.2.row_count) ∧
    (metaPhase envAT ordTA).1 =
      .ok [("transactions", ⟨1000000⟩), ("accounts", ⟨10⟩)] ∧
    minByRowCount [("transactions", ⟨1000000⟩), ("accounts", ⟨10⟩)] =
      some ("accounts", ⟨10⟩) ∧
    ((Opt.executeQuery envAT ordTA qAT DB.empty).calls.filter
      (fun c => match c with | .query t _ => t == "transactions" | _ => false)) =
      [.query "transactions" (selectFetchSQL "*" "transactions_t" none)] :=
  ⟨minByRowCount_le, rfl, rfl, rfl⟩

theorem c5_witness :
    (⟨10⟩ : Metadata).row_count ≤ (⟨1000000⟩ : Metadata).row_count :=
  c5_minimal_driving_but_no_in_fetch.1
    [("transactions", ⟨1000000⟩), ("accounts", ⟨10⟩)] ("accounts", ⟨10⟩)
    (by decide) ("transactions", ⟨1000000⟩) (by decide)

/-- C6 counterexample: on the non-optimized server, a query referencing the
unregistered table `nosuch` alongside the registered `accounts` triggers a
metadata request for `accounts` (twice, in fact) before the request fails —
the failure does not occur "before any remote network call". -/
theorem c6_counterexample :
    (DQ.executeQuery envAcc qAN DB.empty).calls =
      [.metadata "accounts", .metadata "accounts"] ∧
    (DQ.executeQuery envAcc qAN DB.empty).calls ≠ [] ∧
    (DQ.executeQuery envAcc qAN DB.empty).res =
      .error (.http 400
        "Error executing query: Catalog Error: table accounts does not exist") :=
  ⟨rfl, by decide, rfl⟩

/-- C6 (amended): on the optimized server the claim holds — a query naming an
unregistered table fails with HTTP 400 before any network I/O, leaving the
engine untouched; on the non-optimized server the request still fails with
HTTP 400, but metadata calls for the registered tables may be issued first
(counterexample above). -/
theorem c6_optimized_validation_first (env : Env) (order : List String)
    (q : LQuery) (db : DB) (t : String) (ht : t ∈ order)
    (hmiss : cfgOf env t = none) :
    ∃ m, Opt.executeQuery env order q db = ⟨.error (.http 400 m), db, []⟩ := by
  have hmem : t ∈ missingTables env order :=
    List.mem_filter.mpr ⟨ht, by simp [hmiss]⟩
  cases hm : missingTables env order with
  | nil => rw [hm] at hmem; exact absurd hmem (List.not_mem_nil t)
  | cons m ms =>
    refine ⟨validationMsg (m :: ms), ?_⟩
    unfold Opt.executeQuery Opt.executeDistributedQuery Opt.optimizeJoinQuery
      Opt.fallbackRun Opt.originalPath
    rw [hm]
    rfl

theorem c6_witness : ∃ m,
    Opt.executeQuery envAcc ["accounts", "nosuch"] qAN DB.empty =
      ⟨.error (.http 400 m), DB.empty, []⟩ :=
  c6_optimized_validation_first envAcc ["accounts", "nosuch"] qAN DB.empty
    "nosuch" (by decide) rfl

/-- C7: the claim — a failed remote query fetch surfaces as HTTP 500 and the
request fails with no further fallback — is violated twice over.  With every
container fetch failing, the optimized path's failed driving fetch triggers
the fallback (a second fetch attempt appears in the trace), and when that
also fails the top-level handler of `execute_query` re-raises the error as
`HTTPException(400, str(e))`: the caller sees HTTP 400, not 500. -/
theorem c7_remote_failure_surfaced_as_400 :
    (Opt.executeQuery envATfetchFail ordAT qAT DB.empty).res =
      .error (.http 400 "Error connecting to data container for accounts") ∧
    (400 : Nat) ≠ 500 ∧
    ((Opt.executeQuery envATfetchFail ordAT qAT DB.empty).calls.filter
      (fun c => match c with | .query _ _ => true | _ => false)).length = 2 :=
  ⟨rfl, by decide, rfl⟩

/-- C8 counterexample: on the non-optimized server a metadata failure does
not trigger the full-fetch fallback: not a single remote query fetch is
issued (the unmodified query is executed locally, where the logical tables do
not exist) and the request fails — its outcome is not that of the fallback
plan. -/
theorem c8_counterexample :
    ((DQ.executeQuery envATmetaFail qAT DB.empty).calls.filter
      (fun c => match c with | .query _ _ => true | _ => false)) = [] ∧
    (DQ.executeQuery envATmetaFail qAT DB.empty).res =
      .error (.http 400
        "Error executing query: Catalog Error: table accounts does not exist") :=
  ⟨rfl, rfl⟩

/-- C8 (amended): on the *optimized* server the claim holds: whenever the
metadata phase of a multi-table query with parsed join conditions fails, the
request's outcome is exactly that of the fallback run, and a completed
fallback fetch loop has fetched every referenced table in full.  On the
non-optimized server the fallback never runs (counterexample above). -/
theorem c8_optimized_metadata_fallback (env : Env) (order : List String)
    (q : LQuery) (db : DB)
    (hval : missingTables env order = [])
    (hord : order.length ≠ 1)
    (j : JoinTup5) (js : List JoinTup5)
    (hjoins : parseJoinConditions q = j :: js)
    (e : QError) (c : List RemoteCall)
    (hmeta : metaPhase env order = (.error e, c)) :
    Opt.executeDistributedQuery env order q db =
      Opt.fallbackRun env order q db c ∧
    ((Opt.originalLoop env q order ⟨db, [], []⟩).2 = none →
      ∀ t ∈ order, ∃ cfg, cfgOf env t = some cfg ∧
        RemoteCall.query t
          (selectFetchSQL (extractCols q.noLimit t) cfg.table_name none)
          ∈ (Opt.originalLoop env q order ⟨db, [], []⟩).1.calls) := by
  refine ⟨?_, fun hok => Opt.originalLoop_full_fetch env q order ⟨db, [], []⟩ hok⟩
  unfold Opt.executeDistributedQuery Opt.optimizeJoinQuery
  rw [hval]
  dsimp only
  match order, hord with
  | [], _ =>
    rw [hjoins, hmeta]
  | t1 :: t2 :: ts, _ =>
    rw [hjoins, hmeta]

theorem c8_witness :
    (Opt.executeDistributedQuery envATmetaFail ordAT qAT DB.empty =
      Opt.fallbackRun envATmetaFail ordAT qAT DB.empty
        [RemoteCall.metadata "accounts"]) ∧
    ((Opt.originalLoop envATmetaFail qAT ordAT ⟨DB.empty, [], []⟩).2 = none →
      ∀ t ∈ ordAT, ∃ cfg, cfgOf envATmetaFail t = some cfg ∧
        RemoteCall.query t
          (selectFetchSQL (extractCols qAT.noLimit t) cfg.table_name none)
          ∈ (Opt.originalLoop envATmetaFail qAT ordAT ⟨DB.empty, [], []⟩).1.calls) :=
  c8_optimized_metadata_fallback envATmetaFail ordAT qAT DB.empty rfl (by decide)
    ⟨"transactions", "accounts", "id", "transactions", "account_id"⟩ [] rfl
    (.http 500 "Error getting metadata for accounts") [.metadata "accounts"] rfl

/-- C9 counterexample: on the optimized server a single-table query does use
the local join engine — `temp_accounts` is registered and the rewritten
query is executed locally — refuting "the local join engine is not used at
all (no temp table registered)". -/
theorem c9_counterexample :
    (Opt.optimizeJoinQuery envAcc ["accounts"] qAcc DB.empty).db.names =
      ["temp_accounts"] ∧
    (Opt.optimizeJoinQuery envAcc ["accounts"] qAcc DB.empty).db.names ≠ [] ∧
    (Opt.executeDistributedQuery envAcc ["accounts"] qAcc DB.empty).res =
      .ok accountsData.rows :=
  ⟨rfl, by decide, rfl⟩

/-- C9 (amended): on the *non-optimized* server the claim holds: a
single-table query is rewritten to the minimal SELECT/FROM/LIMIT container
query and forwarded in a single remote call, with the local engine's state
untouched.  The optimized server instead materialises the fetched rows as
`temp_<table>` and executes the rewritten query locally (counterexample
above). -/
theorem c9_dq_single_table_forwarded (env : Env) (q : LQuery) (db : DB)
    (hj : q.joins = []) (cfg : TableConfig)
    (hc : cfgOf env q.fromTable = some cfg) :
    (DQ.executeQuery env q db).db = db ∧
    (DQ.executeQuery env q db).calls =
      [.query q.fromTable (DQ.buildContainerQuery q)] := by
  have ht : q.tableTokens = [q.fromTable] := by simp [LQuery.tableTokens, hj]
  unfold DQ.executeQuery
  rw [ht]
  dsimp only
  rw [hc]
  dsimp only
  cases env.data (DQ.buildContainerQuery q).table <;> simp

theorem c9_witness :
    (DQ.executeQuery envAcc qAcc DB.empty).db = DB.empty ∧
    (DQ.executeQuery envAcc qAcc DB.empty).calls =
      [.query "accounts" (DQ.buildContainerQuery qAcc)] :=
  c9_dq_single_table_forwarded envAcc qAcc DB.empty rfl cfgAccounts rfl

/-- C10 counterexample: when the driving table's fetched rows contain zero
distinct values (here: the driving fetch returns no rows at all), the
dependent fetch is not "skipped entirely": the id extraction fails on the
column-less empty frame, the optimized path aborts, and the fallback issues a
full remote query against the dependent table `big` and registers a temp
table for it — refuting "no remote query is issued for that table, no temp
table is registered for it". -/
theorem c10_counterexample :
    (executeRemoteQuery envSB0 "small" (selectFetchSQL "*" "small_t" none)).1 =
      .ok ⟨[], []⟩ ∧
    RemoteCall.query "big" (selectFetchSQL "*" "big_t" none) ∈
      (Opt.executeQuery envSB0 ordSB qSB DB.empty).calls ∧
    "temp_big" ∈ (Opt.executeQuery envSB0 ordSB qSB DB.empty).db.names :=
  ⟨rfl, by decide, by decide⟩

/-- C10 (amended): the in-code skip branch (`if id_df.empty: continue`) is
unreachable through fetched data: a data frame built by `dfOf` from an empty
result set has no columns, so `SELECT DISTINCT` on it fails rather than
returning zero values, and a successful extraction always yields at least
one (possibly NULL) value; zero distinct join values therefore abort the
optimized path to the fallback, which fetches the dependent table in full
(counterexample above). -/
theorem c10_empty_distinct_unreachable (cols : List String) (rows : List Row)
    (c : String) (ids : List (Option Value))
    (h : (dfOf cols rows).distinctCol c = .ok ids) : ids ≠ [] :=
  distinctCol_dfOf_ok_ne_nil cols rows c ids h

theorem c10_witness : ([some (1 : Value)] : List (Option Value)) ≠ [] :=
  c10_empty_distinct_unreachable ["id"] [[("id", 1)]] "id" [some 1] rfl
